import Mathlib

/-!
Shallow embedding of the CWM-MCP HTTP bridge (src/server.js and
src/powershell-bridge.js): the context registry, its HTTP handlers, the
PowerShell parameter formatter and the external command executor.

Timestamps are milliseconds since the epoch, modelled as `Nat`; JavaScript
`Date` subtraction is modelled by subtraction over `Int` (it can be
negative when the minuend is earlier). The JS `Map` backing the registry
is modelled as an insertion-ordered association list with `Map.set`
replace-in-place semantics.
-/

namespace CWM

/-- JavaScript values as they flow through `formatParams` and the handler
bodies: strings, booleans, numbers (the repository only ever passes
integers), and `undefined` (an absent field or an unset environment
variable). -/
inductive JSValue where
  | JStr (s : String)
  | JBool (b : Bool)
  | JNum (n : Int)
  | JUndefined
deriving DecidableEq, Repr

/-- JS string interpolation of a value inside a template literal
(`"${value}"`): strings verbatim, numbers in decimal, `undefined` as the
literal text "undefined". -/
def jsInterp : JSValue → String
  | .JStr s => s
  | .JBool true => "true"
  | .JBool false => "false"
  | .JNum n => toString n
  | .JUndefined => "undefined"

/-- One entry of `formatParams`'s `.map` callback (powershell-bridge.js):
`typeof value === 'string'` yields `-key "value"`, booleans yield `-key`
or the empty string, everything else yields `-key value` unquoted. -/
def renderEntry : String × JSValue → String
  | (key, .JStr s) => "-" ++ key ++ " \"" ++ s ++ "\""
  | (key, .JBool b) => if b then "-" ++ key else ""
  | (key, v) => "-" ++ key ++ " " ++ jsInterp v

/-- JS `Array.prototype.join(' ')`: the elements in order, with a single
space between consecutive elements. -/
def joinSpace : List String → String
  | [] => ""
  | [x] => x
  | x :: xs => x ++ " " ++ joinSpace xs

/-- `formatParams(params)` from powershell-bridge.js: `''` when `params`
is absent, otherwise map entries through `renderEntry`, drop falsy (empty)
strings with `.filter(Boolean)`, and `.join(' ')`. -/
def formatParams : Option (List (String × JSValue)) → String
  | none => ""
  | some ps => joinSpace ((ps.map renderEntry).filter (fun s => s ≠ ""))

/-- The command fragment of the assembled script in `executeCWMCommand`:
the template text is the command name, a single space, then the formatted
parameters. -/
def renderCommandText (command : String) (params : Option (List (String × JSValue))) : String :=
  command ++ " " ++ formatParams params

/-- Outcome of spawning powershell.exe, as observed by the two event
handlers in `executePowerShell`: either the process ran to completion
with an exit code and captured stdout/stderr, or it failed to start. -/
inductive SpawnOutcome where
  | completed (code : Int) (stdout stderr : String)
  | spawnFailed (errMessage : String)
deriving DecidableEq, Repr

/-- `executePowerShell` from powershell-bridge.js, as a function of the
spawn outcome: exit code 0 resolves with trimmed stdout, a non-zero exit
rejects with a message carrying the captured stderr, and a spawn error
rejects with the start-failure message. -/
def executePowerShell : SpawnOutcome → Except String String
  | .completed code stdout stderr =>
      if code = 0 then .ok stdout.trim
      else .error ("PowerShell execution failed with code " ++ toString code ++ ": " ++ stderr)
  | .spawnFailed m => .error ("Failed to start PowerShell process: " ++ m)

/-- One context record as stored in the `contexts` map (server.js).
The JS object literal written by `POST /context` omits the `connected`
key; reading an absent property yields `undefined`, which is falsy and
is only ever tested truthily, so it is embedded as `false`. -/
structure ContextRecord where
  id : String
  created : Nat
  lastAccessed : Nat
  connected : Bool
deriving DecidableEq, Repr

/-- The `contexts` JS `Map`, as an insertion-ordered association list. -/
abbrev Registry := List (String × ContextRecord)

/-- `contexts.has(id)`. -/
def mapHas (r : Registry) (contextId : String) : Bool :=
  r.any (fun p => p.1 == contextId)

/-- `contexts.get(id)` (the first — and, keys being unique, only — entry). -/
def mapGet (r : Registry) (contextId : String) : Option ContextRecord :=
  (r.find? (fun p => p.1 == contextId)).map Prod.snd

/-- `contexts.set(id, v)`: replace in place when the key is present,
append otherwise (JS `Map.set` keeps the original insertion position). -/
def mapSet (r : Registry) (contextId : String) (v : ContextRecord) : Registry :=
  if mapHas r contextId then
    r.map (fun p => if p.1 == contextId then (contextId, v) else p)
  else
    r ++ [(contextId, v)]

/-- `contexts.delete(id)`. -/
def mapDelete (r : Registry) (contextId : String) : Registry :=
  r.filter (fun p => p.1 != contextId)

/-- `getContext(contextId)` (server.js lines 22-27): returns the record
or throws `Context <id> not found`. -/
def getContext (r : Registry) (contextId : String) : Except String ContextRecord :=
  match mapGet r contextId with
  | some c => .ok c
  | none => .error ("Context " ++ contextId ++ " not found")

/-- The in-place mutation `context.lastAccessed = new Date()` that every
operation handler performs on the record fetched by `getContext`. -/
def touch (r : Registry) (contextId : String) (now : Nat) : Registry :=
  match mapGet r contextId with
  | some ctx => mapSet r contextId { ctx with lastAccessed := now }
  | none => r

/-- Response bodies: either a JSON object literal written by the handler
(all such literals in server.js have only string-valued fields), or the
raw parsed result of the external command passed through `res.json`. -/
inductive RespBody where
  | fields (kvs : List (String × String))
  | raw (result : String)
deriving DecidableEq, Repr

/-- An HTTP response: status code and JSON body. `res.json` without an
explicit status sends 200. -/
structure HttpResponse where
  status : Nat
  body : RespBody
deriving DecidableEq, Repr

/-- What `await executeCWMCommand(...)` did for one request: resolved
with a parsed result (abstracted as its text) or rejected with an error
message. The handlers take an oracle mapping the rendered command text to
its outcome, so that the embedding records which command each handler
runs while the external world stays abstract. -/
inductive ExecOutcome where
  | ok (result : String)
  | err (message : String)
deriving DecidableEq, Repr

/-- The external world as seen through `executeCWMCommand`. -/
abbrev ExecOracle := String → ExecOutcome

/-- `POST /context` (server.js lines 30-52): insert a fresh record with
`created = lastAccessed = now` keyed by the generated identifier, and
answer `{contextId, status:"created"}`. The generated identifier
(`Math.random().toString(36).substring(2, 15)`) is an input here: the
embedding treats the entropy source as an oracle. -/
def postContext (r : Registry) (generatedId : String) (now : Nat) : Registry × HttpResponse :=
  let ctx : ContextRecord := { id := generatedId, created := now, lastAccessed := now, connected := false }
  (mapSet r generatedId ctx,
   { status := 200, body := .fields [("contextId", generatedId), ("status", "created")] })

/-- The five `CWM_*` environment variables read by the connect handler;
`none` models an unset variable. -/
structure EnvConfig where
  CWM_SERVER : Option String
  CWM_COMPANY : Option String
  CWM_PUBKEY : Option String
  CWM_PRIVATEKEY : Option String
  CWM_CLIENTID : Option String
deriving DecidableEq, Repr

/-- The optional fields of the `POST /context/:id/connect` request body. -/
structure ConnectBody where
  server : Option String
  company : Option String
  pubKey : Option String
  privateKey : Option String
  clientId : Option String
deriving DecidableEq, Repr

/-- JS `a || b` on two possibly-undefined strings: the left operand wins
unless it is falsy (undefined or the empty string). -/
def jsOrStr : Option String → Option String → Option String
  | some s, b => if s = "" then b else some s
  | none, b => b

/-- A possibly-undefined string as the `JSValue` placed in a params
object. -/
def optToJS : Option String → JSValue
  | some s => .JStr s
  | none => .JUndefined

/-- The params object the connect handler passes to `executeCWMCommand`
(server.js lines 67-76): each field is the request value with the
environment variable as `||` fallback. -/
def connectParams (env : EnvConfig) (body : ConnectBody) : List (String × JSValue) :=
  [("Server", optToJS (jsOrStr body.server env.CWM_SERVER)),
   ("Company", optToJS (jsOrStr body.company env.CWM_COMPANY)),
   ("PubKey", optToJS (jsOrStr body.pubKey env.CWM_PUBKEY)),
   ("PrivateKey", optToJS (jsOrStr body.privateKey env.CWM_PRIVATEKEY)),
   ("ClientID", optToJS (jsOrStr body.clientId env.CWM_CLIENTID))]

/-- What the connection bootstrap does with the credentials before the
external interpreter is involved: either proceed, handing the executor an
assembled command text, or fail early naming a missing credential. -/
inductive BootstrapStep where
  | proceed (commandText : String)
  | failMissingCredential (which : String)
deriving DecidableEq, Repr

/-- The code's connection bootstrap (server.js lines 64-76 feeding
powershell-bridge.js lines 64-82): no credential is checked anywhere; the
handler always proceeds, rendering `Connect-CWM` with whatever the `||`
fallbacks produced (an unset credential interpolates as the literal text
`undefined`). -/
def connectBootstrap (env : EnvConfig) (body : ConnectBody) : BootstrapStep :=
  .proceed (renderCommandText "Connect-CWM" (some (connectParams env body)))

/-- Modelled from the spec: the Connection Bootstrapper of spec §4.2,
`server address, company, public key, private key, client id — each fails
with MissingCredential if unset and not supplied per-call`. This
definition follows the spec's words, for comparison with
`connectBootstrap`, which is translated from the source. -/
def specBootstrap (env : EnvConfig) (body : ConnectBody) : BootstrapStep :=
  if (jsOrStr body.server env.CWM_SERVER).isNone then .failMissingCredential "server"
  else if (jsOrStr body.company env.CWM_COMPANY).isNone then .failMissingCredential "company"
  else if (jsOrStr body.pubKey env.CWM_PUBKEY).isNone then .failMissingCredential "public key"
  else if (jsOrStr body.privateKey env.CWM_PRIVATEKEY).isNone then .failMissingCredential "private key"
  else if (jsOrStr body.clientId env.CWM_CLIENTID).isNone then .failMissingCredential "client id"
  else connectBootstrap env body

/-- `POST /context/:contextId/connect` (server.js lines 55-91): look up
the context (500 on failure), refresh `lastAccessed`, run `Connect-CWM`
(outcome supplied as `exec`), and on success set `connected = true` and
answer `{status:"connected", message}`; a rejection is caught and becomes
a 500 with the error message. -/
def postConnect (r : Registry) (contextId : String) (env : EnvConfig) (body : ConnectBody)
    (now : Nat) (exec : ExecOracle) : Registry × HttpResponse :=
  match getContext r contextId with
  | .error m => (r, { status := 500, body := .fields [("error", m)] })
  | .ok ctx =>
    let r1 := mapSet r contextId { ctx with lastAccessed := now }
    match exec (renderCommandText "Connect-CWM" (some (connectParams env body))) with
    | .err m => (r1, { status := 500, body := .fields [("error", m)] })
    | .ok _ =>
      let r2 := mapSet r1 contextId { ctx with lastAccessed := now, connected := true }
      (r2, { status := 200,
             body := .fields [("status", "connected"),
                              ("message", "Successfully connected to ConnectWise Manage")] })

/-- `POST /context/:contextId/getSystemInfo` (server.js lines 94-114):
look up, refresh `lastAccessed`, run the command, pass the parsed result
through on success, 500 with the message on failure. -/
def postGetSystemInfo (r : Registry) (contextId : String) (now : Nat) (exec : ExecOracle) :
    Registry × HttpResponse :=
  match getContext r contextId with
  | .error m => (r, { status := 500, body := .fields [("error", m)] })
  | .ok ctx =>
    let r1 := mapSet r contextId { ctx with lastAccessed := now }
    match exec (renderCommandText "Get-CWMSystemInfo" none) with
    | .ok result => (r1, { status := 200, body := .raw result })
    | .err m => (r1, { status := 500, body := .fields [("error", m)] })

/-- The params object built by the companies/tickets handlers: start
empty and add `Condition` only when `conditions` is truthy. -/
def conditionParams (conditions : Option String) : List (String × JSValue) :=
  match conditions with
  | some c => if c = "" then [] else [("Condition", .JStr c)]
  | none => []

/-- `POST /context/:contextId/getCompanies` (server.js lines 117-145). -/
def postGetCompanies (r : Registry) (contextId : String) (conditions : Option String)
    (now : Nat) (exec : ExecOracle) : Registry × HttpResponse :=
  match getContext r contextId with
  | .error m => (r, { status := 500, body := .fields [("error", m)] })
  | .ok ctx =>
    let r1 := mapSet r contextId { ctx with lastAccessed := now }
    match exec (renderCommandText "Get-CWMCompany" (some (conditionParams conditions))) with
    | .ok result => (r1, { status := 200, body := .raw result })
    | .err m => (r1, { status := 500, body := .fields [("error", m)] })

/-- `POST /context/:contextId/getTickets` (server.js lines 148-176). -/
def postGetTickets (r : Registry) (contextId : String) (conditions : Option String)
    (now : Nat) (exec : ExecOracle) : Registry × HttpResponse :=
  match getContext r contextId with
  | .error m => (r, { status := 500, body := .fields [("error", m)] })
  | .ok ctx =>
    let r1 := mapSet r contextId { ctx with lastAccessed := now }
    match exec (renderCommandText "Get-CWMTicket" (some (conditionParams conditions))) with
    | .ok result => (r1, { status := 200, body := .raw result })
    | .err m => (r1, { status := 500, body := .fields [("error", m)] })

/-- JS truthiness of the `command` field (`!command` is taken when the
field is absent or the empty string). -/
def jsTruthyStr : Option String → Bool
  | some s => s ≠ ""
  | none => false

/-- `POST /context/:contextId/executeCommand` (server.js lines 179-207):
`getContext` runs FIRST (a missing context throws and is caught as 500),
then a falsy `command` answers 400 `{error:"Command is required"}`
without touching the record, then `lastAccessed` is refreshed and the
command runs. -/
def postExecuteCommand (r : Registry) (contextId : String) (command : Option String)
    (params : Option (List (String × JSValue))) (now : Nat) (exec : ExecOracle) :
    Registry × HttpResponse :=
  match getContext r contextId with
  | .error m => (r, { status := 500, body := .fields [("error", m)] })
  | .ok ctx =>
    if ¬ jsTruthyStr command then
      (r, { status := 400, body := .fields [("error", "Command is required")] })
    else
      let r1 := mapSet r contextId { ctx with lastAccessed := now }
      match exec (renderCommandText (command.getD "") params) with
      | .ok result => (r1, { status := 200, body := .raw result })
      | .err m => (r1, { status := 500, body := .fields [("error", m)] })

/-- `DELETE /context/:contextId` (server.js lines 210-233): 404
`{error:"Context <id> not found"}` when the key is absent, otherwise
remove it and answer `{status:"deleted", message}`. -/
def deleteContext (r : Registry) (contextId : String) : Registry × HttpResponse :=
  if ¬ mapHas r contextId then
    (r, { status := 404, body := .fields [("error", "Context " ++ contextId ++ " not found")] })
  else
    (mapDelete r contextId,
     { status := 200,
       body := .fields [("status", "deleted"),
                        ("message", "Context " ++ contextId ++ " has been deleted")] })

/-- The cleanup job's interval period in milliseconds
(`setInterval(..., 3600000)`, server.js line 247). -/
def sweepPeriodMs : Nat := 3600000

/-- `const staleThreshold = 3600000` (server.js line 238). -/
def defaultStaleThreshold : Nat := 3600000

/-- The body of the cleanup job (server.js lines 236-247): delete every
record with `now - lastAccessed > staleThreshold` (JS `Date` subtraction,
hence over `Int`); deleting the entry under iteration leaves exactly the
other entries, so the net effect is a filter. -/
def sweep (r : Registry) (now : Nat) (staleThreshold : Nat) : Registry :=
  r.filter (fun p => ¬ ((now : Int) - (p.2.lastAccessed : Int) > (staleThreshold : Int)))

/-- The identifiers currently present in the registry. -/
def keysOf (r : Registry) : List String := r.map Prod.fst

/-- Every mutating operation the server ever performs on the `contexts`
map: the seven route handlers and the periodic cleanup job. -/
inductive RegOp where
  | create (generatedId : String) (now : Nat)
  | connect (contextId : String) (env : EnvConfig) (body : ConnectBody) (now : Nat) (exec : ExecOracle)
  | sysInfo (contextId : String) (now : Nat) (exec : ExecOracle)
  | companies (contextId : String) (conditions : Option String) (now : Nat) (exec : ExecOracle)
  | tickets (contextId : String) (conditions : Option String) (now : Nat) (exec : ExecOracle)
  | execCmd (contextId : String) (command : Option String)
      (params : Option (List (String × JSValue))) (now : Nat) (exec : ExecOracle)
  | del (contextId : String)
  | sweepOp (now staleThreshold : Nat)

/-- The registry after one operation. -/
def applyOp (r : Registry) : RegOp → Registry
  | .create generatedId now => (postContext r generatedId now).1
  | .connect contextId env body now exec => (postConnect r contextId env body now exec).1
  | .sysInfo contextId now exec => (postGetSystemInfo r contextId now exec).1
  | .companies contextId conditions now exec => (postGetCompanies r contextId conditions now exec).1
  | .tickets contextId conditions now exec => (postGetTickets r contextId conditions now exec).1
  | .execCmd contextId command params now exec =>
      (postExecuteCommand r contextId command params now exec).1
  | .del contextId => (deleteContext r contextId).1
  | .sweepOp now staleThreshold => sweep r now staleThreshold

/-- The registry reached from the empty initial map (server start) by a
sequence of operations. -/
def runOps (ops : List RegOp) : Registry := ops.foldl applyOp []

/-- The `contextId` field of a handler's JSON response (empty when the
body has no such field). -/
def respContextId (resp : HttpResponse) : String :=
  match resp.body with
  | .fields kvs => (kvs.lookup "contextId").getD ""
  | .raw _ => ""

/-- N sequential `POST /context` calls, each fed one draw of the entropy
oracle and a timestamp; returns the final registry and the `contextId`s
the responses reported, in order. -/
def sequentialCreates : Registry → List (String × Nat) → Registry × List String
  | r, [] => (r, [])
  | r, (generatedId, now) :: rest =>
      let step := postContext r generatedId now
      let tail := sequentialCreates step.1 rest
      (tail.1, respContextId step.2 :: tail.2)

/-- A sample record for concrete instantiations. -/
def sampleCtx : ContextRecord :=
  { id := "x1y2z3", created := 0, lastAccessed := 0, connected := false }

/-! Helper lemmas about the `Map` model. -/

theorem mapHas_false_forall {r : Registry} {contextId : String}
    (h : mapHas r contextId = false) : ∀ p ∈ r, (p.1 == contextId) = false := by
  intro p hp
  by_contra hc
  have hc' : (p.1 == contextId) = true := by
    cases hq : (p.1 == contextId) with
    | true => rfl
    | false => exact absurd hq hc
  have : mapHas r contextId = true :=
    List.any_eq_true.mpr ⟨p, hp, hc'⟩
  rw [this] at h
  exact absurd h (by simp)

theorem not_mem_keysOf_of_not_has {r : Registry} {contextId : String}
    (h : mapHas r contextId = false) : contextId ∉ keysOf r := by
  intro hmem
  obtain ⟨p, hp, hfst⟩ := List.mem_map.mp hmem
  have := mapHas_false_forall h p hp
  rw [hfst] at this
  simp at this

theorem mapGet_eq_none {r : Registry} {contextId : String}
    (h : mapHas r contextId = false) : mapGet r contextId = none := by
  unfold mapGet
  have hfind : r.find? (fun p => p.1 == contextId) = none := by
    apply List.find?_eq_none.mpr
    intro p hp
    simpa using mapHas_false_forall h p hp
  rw [hfind]
  rfl

theorem mapGet_isSome_of_has {r : Registry} {contextId : String}
    (h : mapHas r contextId = true) : ∃ ctx, mapGet r contextId = some ctx := by
  obtain ⟨p, hp, hpq⟩ := List.any_eq_true.mp h
  cases hfind : r.find? (fun p => p.1 == contextId) with
  | some q => exact ⟨q.2, by simp [mapGet, hfind]⟩
  | none =>
    exact absurd hpq (by simpa using List.find?_eq_none.mp hfind p hp)

theorem mapGet_replace (contextId : String) (v : ContextRecord) :
    ∀ r : Registry, mapHas r contextId = true →
      mapGet (r.map (fun p => if p.1 == contextId then (contextId, v) else p)) contextId
        = some v := by
  intro r
  induction r with
  | nil => intro h; simp [mapHas] at h
  | cons hd tl ih =>
    intro h
    by_cases hhd : (hd.1 == contextId) = true
    · unfold mapGet
      rw [List.map_cons, if_pos hhd, List.find?_cons_of_pos _ (by simp)]
      rfl
    · have hhd' : (hd.1 == contextId) = false := by
        cases hq : (hd.1 == contextId) with
        | true => exact absurd hq hhd
        | false => rfl
      have htl : mapHas tl contextId = true := by
        unfold mapHas at h ⊢
        rw [List.any_cons, hhd', Bool.false_or] at h
        exact h
      have := ih htl
      unfold mapGet at this ⊢
      rw [List.map_cons, if_neg hhd]
      simp only [List.find?_cons, hhd']
      exact this

theorem mapGet_append_self (contextId : String) (v : ContextRecord) :
    ∀ r : Registry, mapHas r contextId = false →
      mapGet (r ++ [(contextId, v)]) contextId = some v := by
  intro r
  induction r with
  | nil => intro _; simp [mapGet, List.find?]
  | cons hd tl ih =>
    intro h
    have hhd : (hd.1 == contextId) = false := mapHas_false_forall h hd (by simp)
    have htl : mapHas tl contextId = false := by
      unfold mapHas at h ⊢
      rw [List.any_cons, hhd] at h
      simpa using h
    have := ih htl
    unfold mapGet at this ⊢
    rw [List.cons_append, List.find?_cons_of_neg _ (by simp [hhd])]
    exact this

theorem mapGet_mapSet_self (r : Registry) (contextId : String) (v : ContextRecord) :
    mapGet (mapSet r contextId v) contextId = some v := by
  unfold mapSet
  by_cases h : mapHas r contextId = true
  · rw [if_pos h]; exact mapGet_replace contextId v r h
  · have h' : mapHas r contextId = false := by
      cases hq : mapHas r contextId with
      | true => exact absurd hq h
      | false => rfl
    rw [if_neg (by simp [h'])]
    exact mapGet_append_self contextId v r h'

theorem mapHas_mapSet_self (r : Registry) (contextId : String) (v : ContextRecord) :
    mapHas (mapSet r contextId v) contextId = true := by
  cases hq : mapHas (mapSet r contextId v) contextId with
  | true => rfl
  | false =>
    have := mapGet_eq_none hq
    rw [mapGet_mapSet_self] at this
    exact absurd this (by simp)

theorem mapSet_mapSet_self (r : Registry) (contextId : String) (v w : ContextRecord) :
    mapSet (mapSet r contextId v) contextId w = mapSet r contextId w := by
  have houter : mapHas (mapSet r contextId v) contextId = true := mapHas_mapSet_self r contextId v
  by_cases h : mapHas r contextId = true
  · show (if mapHas (mapSet r contextId v) contextId then _ else _) = _
    rw [if_pos houter]
    unfold mapSet
    rw [if_pos h, if_pos h, List.map_map]
    apply List.map_congr_left
    intro p _
    by_cases hc : (p.1 == contextId) = true
    · simp [Function.comp, hc]
    · simp [Function.comp, hc]
  · have h' : mapHas r contextId = false := by
      cases hq : mapHas r contextId with
      | true => exact absurd hq h
      | false => rfl
    show (if mapHas (mapSet r contextId v) contextId then _ else _) = _
    rw [if_pos houter]
    unfold mapSet
    rw [if_neg (by simp [h']), if_neg (by simp [h']), List.map_append]
    congr 1
    · have : r.map (fun p => if p.1 == contextId then (contextId, w) else p) = r.map id := by
        apply List.map_congr_left
        intro p hp
        have hne := mapHas_false_forall h' p hp
        simp [hne]
      rw [this, List.map_id]
    · simp

theorem keysOf_mapSet_of_has {r : Registry} {contextId : String} (h : mapHas r contextId = true)
    (v : ContextRecord) : keysOf (mapSet r contextId v) = keysOf r := by
  unfold mapSet keysOf
  rw [if_pos h, List.map_map]
  apply List.map_congr_left
  intro p _
  by_cases hc : (p.1 == contextId) = true
  · have hp : p.1 = contextId := by simpa using hc
    simp [Function.comp, hc, hp]
  · simp [Function.comp, hc]

theorem keysOf_append_single (r : Registry) (contextId : String) (v : ContextRecord) :
    keysOf (r ++ [(contextId, v)]) = keysOf r ++ [contextId] := by
  simp [keysOf]

theorem nodup_keysOf_mapSet {r : Registry} {contextId : String} {v : ContextRecord}
    (h : (keysOf r).Nodup) : (keysOf (mapSet r contextId v)).Nodup := by
  by_cases hh : mapHas r contextId = true
  · rw [keysOf_mapSet_of_has hh]; exact h
  · have hh' : mapHas r contextId = false := by
      cases hq : mapHas r contextId with
      | true => exact absurd hq hh
      | false => rfl
    unfold mapSet
    rw [if_neg (by simp [hh']), keysOf_append_single]
    refine List.Nodup.append h (List.nodup_singleton _) ?_
    intro a ha hb
    rw [List.mem_singleton] at hb
    exact not_mem_keysOf_of_not_has hh' (hb ▸ ha)

theorem nodup_keysOf_of_sublist {r' r : Registry} (hs : List.Sublist r' r)
    (h : (keysOf r).Nodup) : (keysOf r').Nodup :=
  List.Nodup.sublist (List.Sublist.map Prod.fst hs) h

theorem nodup_keysOf_filter {r : Registry} (q : String × ContextRecord → Bool)
    (h : (keysOf r).Nodup) : (keysOf (r.filter q)).Nodup :=
  nodup_keysOf_of_sublist (List.filter_sublist r) h

theorem nodup_keysOf_applyOp {r : Registry} (h : (keysOf r).Nodup) (op : RegOp) :
    (keysOf (applyOp r op)).Nodup := by
  cases op with
  | create generatedId now => exact nodup_keysOf_mapSet h
  | connect contextId env body now exec =>
    show (keysOf (postConnect r contextId env body now exec).1).Nodup
    unfold postConnect
    cases hget : getContext r contextId with
    | error m => simpa [hget] using h
    | ok ctx =>
      cases hexec : exec (renderCommandText "Connect-CWM" (some (connectParams env body))) with
      | ok res => simp only [hget, hexec]; exact nodup_keysOf_mapSet (nodup_keysOf_mapSet h)
      | err m => simp only [hget, hexec]; exact nodup_keysOf_mapSet h
  | sysInfo contextId now exec =>
    show (keysOf (postGetSystemInfo r contextId now exec).1).Nodup
    unfold postGetSystemInfo
    cases hget : getContext r contextId with
    | error m => simpa [hget] using h
    | ok ctx =>
      cases hexec : exec (renderCommandText "Get-CWMSystemInfo" none) with
      | ok res => simp only [hget, hexec]; exact nodup_keysOf_mapSet h
      | err m => simp only [hget, hexec]; exact nodup_keysOf_mapSet h
  | companies contextId conditions now exec =>
    show (keysOf (postGetCompanies r contextId conditions now exec).1).Nodup
    unfold postGetCompanies
    cases hget : getContext r contextId with
    | error m => simpa [hget] using h
    | ok ctx =>
      cases hexec : exec (renderCommandText "Get-CWMCompany" (some (conditionParams conditions))) with
      | ok res => simp only [hget, hexec]; exact nodup_keysOf_mapSet h
      | err m => simp only [hget, hexec]; exact nodup_keysOf_mapSet h
  | tickets contextId conditions now exec =>
    show (keysOf (postGetTickets r contextId conditions now exec).1).Nodup
    unfold postGetTickets
    cases hget : getContext r contextId with
    | error m => simpa [hget] using h
    | ok ctx =>
      cases hexec : exec (renderCommandText "Get-CWMTicket" (some (conditionParams conditions))) with
      | ok res => simp only [hget, hexec]; exact nodup_keysOf_mapSet h
      | err m => simp only [hget, hexec]; exact nodup_keysOf_mapSet h
  | execCmd contextId command params now exec =>
    show (keysOf (postExecuteCommand r contextId command params now exec).1).Nodup
    unfold postExecuteCommand
    cases hget : getContext r contextId with
    | error m => simpa [hget] using h
    | ok ctx =>
      by_cases hcmd : jsTruthyStr command = true
      · cases hexec : exec (renderCommandText (command.getD "") params) with
        | ok res => simp only [hget, hexec, hcmd]; simpa using nodup_keysOf_mapSet h
        | err m => simp only [hget, hexec, hcmd]; simpa using nodup_keysOf_mapSet h
      · simp only [hget]
        rw [if_pos (by simpa using hcmd)]
        exact h
  | del contextId =>
    show (keysOf (deleteContext r contextId).1).Nodup
    unfold deleteContext
    by_cases hh : mapHas r contextId = true
    · rw [if_neg (by simp [hh])]
      exact nodup_keysOf_filter _ h
    · rw [if_pos (by simpa using hh)]
      exact h
  | sweepOp now staleThreshold => exact nodup_keysOf_filter _ h

theorem mapGet_mapDelete_self (r : Registry) (contextId : String) :
    mapGet (mapDelete r contextId) contextId = none := by
  unfold mapGet mapDelete
  have hfind : (r.filter (fun p => p.1 != contextId)).find? (fun p => p.1 == contextId) = none := by
    apply List.find?_eq_none.mpr
    intro p hp
    have := (List.mem_filter.mp hp).2
    simpa using this
  rw [hfind]
  rfl

theorem respContextId_postContext (r : Registry) (generatedId : String) (now : Nat) :
    respContextId (postContext r generatedId now).2 = generatedId := by
  simp [postContext, respContextId, List.lookup]

theorem sequentialCreates_ids (draws : List (String × Nat)) :
    ∀ r : Registry, (sequentialCreates r draws).2 = draws.map Prod.fst := by
  induction draws with
  | nil => intro r; rfl
  | cons d rest ih =>
    intro r
    simp [sequentialCreates, respContextId_postContext, ih]

theorem ne_empty_of_length_pos {s : String} (h : 0 < s.length) : s ≠ "" := by
  intro he
  rw [he] at h
  simp at h

theorem renderEntry_str_ne_empty (k s : String) : renderEntry (k, .JStr s) ≠ "" := by
  apply ne_empty_of_length_pos
  simp [renderEntry, String.length_append, show "-".length = 1 from rfl]

theorem renderEntry_true_ne_empty (k : String) : renderEntry (k, .JBool true) ≠ "" := by
  apply ne_empty_of_length_pos
  simp [renderEntry, String.length_append, show "-".length = 1 from rfl]

theorem renderEntry_num_ne_empty (k : String) (n : Int) : renderEntry (k, .JNum n) ≠ "" := by
  apply ne_empty_of_length_pos
  simp [renderEntry, jsInterp, String.length_append, show "-".length = 1 from rfl]

/-! The claims. -/

/-- C1: for every registry state, a sweep at time `now` with idle
threshold `t` keeps exactly the entries with `now - lastAccessedAt ≤ t`
(so a record exactly at the threshold is NOT removed), leaves every
surviving record unchanged and in place (the result is a sublist of the
input), and both the cleanup period and the idle threshold default to one
hour, 3600000 ms. -/
theorem sweep_removes_exactly_stale :
    (∀ (r : Registry) (now staleThreshold : Nat) (p : String × ContextRecord),
        p ∈ sweep r now staleThreshold ↔
          p ∈ r ∧ (now : Int) - (p.2.lastAccessed : Int) ≤ (staleThreshold : Int)) ∧
    (∀ (r : Registry) (now staleThreshold : Nat),
        List.Sublist (sweep r now staleThreshold) r) ∧
    sweepPeriodMs = 3600000 ∧ defaultStaleThreshold = 3600000 := by
  refine ⟨?_, ?_, rfl, rfl⟩
  · intro r now t p
    unfold sweep
    simp only [List.mem_filter, decide_eq_true_eq, gt_iff_lt, not_lt]
  · intro r now t
    exact List.filter_sublist r

/-- C2: starting from the empty registry, every sequence of server
operations leaves the registry's identifiers pairwise distinct (any two
records present simultaneously have different keys), and a run of
sequential `POST /context` calls returns exactly the oracle's identifier
draws, so the returned identifiers are pairwise distinct whenever the
draws are (the negligible-collision assumption on
`Math.random().toString(36).substring(2, 15)` is expressed as the
hypothesis that the draws are distinct). -/
theorem registry_ids_pairwise_distinct :
    (∀ ops : List RegOp, (keysOf (runOps ops)).Nodup) ∧
    (∀ (r : Registry) (draws : List (String × Nat)),
        (sequentialCreates r draws).2 = draws.map Prod.fst) ∧
    (∀ (r : Registry) (draws : List (String × Nat)),
        (draws.map Prod.fst).Nodup → (sequentialCreates r draws).2.Nodup) := by
  have main : ∀ (ops : List RegOp) (r : Registry), (keysOf r).Nodup →
      (keysOf (ops.foldl applyOp r)).Nodup := by
    intro ops
    induction ops with
    | nil => intro r h; simpa using h
    | cons op rest ih =>
      intro r h
      rw [List.foldl_cons]
      exact ih _ (nodup_keysOf_applyOp h op)
  refine ⟨fun ops => main ops [] (by simp [keysOf]),
          fun r draws => sequentialCreates_ids draws r, ?_⟩
  · intro r draws h
    rw [sequentialCreates_ids draws r]
    exact h

/-- C2 witness: two creations with distinct draws, then a delete, keep
the key list duplicate-free; the reported identifiers are the draws. -/
theorem registry_ids_pairwise_distinct_witness :
    (keysOf (runOps [RegOp.create "aaa" 0, RegOp.create "bbb" 1, RegOp.del "aaa"])).Nodup ∧
    (sequentialCreates [] [("aaa", 0), ("bbb", 1)]).2 = ["aaa", "bbb"] ∧
    (sequentialCreates [] [("aaa", 0), ("bbb", 1)]).2.Nodup :=
  ⟨registry_ids_pairwise_distinct.1 _,
   (registry_ids_pairwise_distinct.2.1 [] [("aaa", 0), ("bbb", 1)]).trans rfl,
   registry_ids_pairwise_distinct.2.2 [] [("aaa", 0), ("bbb", 1)] (by decide)⟩

/-- C3: `POST /context` is total: for every prior registry state it
answers 200 with exactly `{contextId, status:"created"}`, and the stored
record has `created = lastAccessed = now` and `connected = false`. -/
theorem create_always_succeeds :
    ∀ (r : Registry) (generatedId : String) (now : Nat),
      (postContext r generatedId now).2 =
        { status := 200, body := .fields [("contextId", generatedId), ("status", "created")] } ∧
      mapGet (postContext r generatedId now).1 generatedId =
        some { id := generatedId, created := now, lastAccessed := now, connected := false } := by
  intro r generatedId now
  exact ⟨rfl, mapGet_mapSet_self r generatedId _⟩

/-- C4: with a monotone clock (`lastAccessedAt ≤ now` at the moment of
the call), the `lastAccessed = new Date()` refresh never decreases the
stored timestamp; performing it twice with the clock unchanged changes
nothing after the first; and the getTickets handler's whole effect on the
registry is exactly this refresh, so the invariant carries over to the
operation handlers. -/
theorem lastAccessed_monotone :
    (∀ (r : Registry) (contextId : String) (now : Nat) (ctx : ContextRecord),
        mapGet r contextId = some ctx → ctx.lastAccessed ≤ now →
        ∃ ctx2, mapGet (touch r contextId now) contextId = some ctx2 ∧
          ctx.lastAccessed ≤ ctx2.lastAccessed ∧ ctx2.lastAccessed = now) ∧
    (∀ (r : Registry) (contextId : String) (now : Nat),
        touch (touch r contextId now) contextId now = touch r contextId now) ∧
    (∀ (r : Registry) (contextId : String) (conditions : Option String) (now : Nat)
        (exec : ExecOracle),
        (postGetTickets r contextId conditions now exec).1 = touch r contextId now) := by
  refine ⟨?_, ?_, ?_⟩
  · intro r contextId now ctx hget hle
    refine ⟨{ ctx with lastAccessed := now }, ?_, by simpa using hle, rfl⟩
    unfold touch
    rw [hget]
    exact mapGet_mapSet_self r contextId _
  · intro r contextId now
    cases hget : mapGet r contextId with
    | none =>
      have h1 : touch r contextId now = r := by unfold touch; rw [hget]
      rw [h1, h1]
    | some ctx =>
      have h1 : touch r contextId now = mapSet r contextId { ctx with lastAccessed := now } := by
        unfold touch; rw [hget]
      rw [h1]
      unfold touch
      rw [mapGet_mapSet_self]
      exact mapSet_mapSet_self r contextId _ _
  · intro r contextId conditions now exec
    unfold postGetTickets touch getContext
    cases hget : mapGet r contextId with
    | none => rfl
    | some ctx =>
      cases exec (renderCommandText "Get-CWMTicket" (some (conditionParams conditions))) with
      | ok res => rfl
      | err m => rfl

/-- C4 witness: touching a concrete record at a later time sets its
timestamp to that time, and a second touch with the same clock is a
no-op; the getTickets handler at the same input has exactly the touch's
effect. -/
theorem lastAccessed_monotone_witness :
    (∃ ctx2, mapGet (touch [("x1y2z3", sampleCtx)] "x1y2z3" 5) "x1y2z3" = some ctx2 ∧
       sampleCtx.lastAccessed ≤ ctx2.lastAccessed ∧ ctx2.lastAccessed = 5) ∧
    touch (touch [("x1y2z3", sampleCtx)] "x1y2z3" 5) "x1y2z3" 5 =
      touch [("x1y2z3", sampleCtx)] "x1y2z3" 5 ∧
    (postGetTickets [("x1y2z3", sampleCtx)] "x1y2z3" none 5 (fun _ => .err "no creds")).1 =
      touch [("x1y2z3", sampleCtx)] "x1y2z3" 5 :=
  ⟨lastAccessed_monotone.1 _ "x1y2z3" 5 sampleCtx (by decide) (by decide),
   lastAccessed_monotone.2.1 _ "x1y2z3" 5,
   lastAccessed_monotone.2.2 _ "x1y2z3" none 5 _⟩

/-- C5: when the identifier is present, `DELETE /context/:id` answers 200
and a subsequent `getContext` on the new registry fails with
`Context <id> not found`; when it is absent, the route answers 404 with
body `{error: "Context <id> not found"}` and leaves the registry
unchanged. -/
theorem delete_then_get_not_found :
    ∀ (r : Registry) (contextId : String),
      (mapHas r contextId = true →
        (deleteContext r contextId).2.status = 200 ∧
        getContext (deleteContext r contextId).1 contextId =
          .error ("Context " ++ contextId ++ " not found")) ∧
      (mapHas r contextId = false →
        deleteContext r contextId =
          (r, { status := 404,
                body := .fields [("error", "Context " ++ contextId ++ " not found")] })) := by
  intro r contextId
  constructor
  · intro h
    have hd : deleteContext r contextId =
        (mapDelete r contextId,
         { status := 200,
           body := .fields [("status", "deleted"),
                            ("message", "Context " ++ contextId ++ " has been deleted")] }) := by
      unfold deleteContext
      rw [if_neg (by simp [h])]
    rw [hd]
    refine ⟨rfl, ?_⟩
    unfold getContext
    rw [mapGet_mapDelete_self]
  · intro h
    unfold deleteContext
    rw [if_pos (by simp [h])]

/-- C5 witness: deleting the only record then looking it up fails with
NotFound, and `DELETE /context/unknown-id` on an empty registry answers
404 with `{error:"Context unknown-id not found"}`. -/
theorem delete_then_get_not_found_witness :
    getContext (deleteContext [("x1y2z3", sampleCtx)] "x1y2z3").1 "x1y2z3" =
      .error "Context x1y2z3 not found" ∧
    deleteContext [] "unknown-id" =
      ([], { status := 404, body := .fields [("error", "Context unknown-id not found")] }) :=
  ⟨((delete_then_get_not_found [("x1y2z3", sampleCtx)] "x1y2z3").1 (by decide)).2,
   (delete_then_get_not_found [] "unknown-id").2 (by decide)⟩

/-- C6: the formatter renders a string value as `-N "v"` with the value
verbatim and unescaped, `true` as the bare flag `-N`, `false` as nothing
at all, a number as `-N v` unquoted; rendered entries are joined by
single spaces; an absent or empty map renders to the empty string; and
`Get-Ticket` with `{conditions: "status='Open'"}` renders to exactly
`Get-Ticket -conditions "status='Open'"`. -/
theorem formatParams_renders_by_type :
    (∀ (k s : String), formatParams (some [(k, .JStr s)]) = "-" ++ k ++ " \"" ++ s ++ "\"") ∧
    (∀ k : String, formatParams (some [(k, .JBool true)]) = "-" ++ k) ∧
    (∀ (k : String) (ps : List (String × JSValue)),
        formatParams (some ((k, .JBool false) :: ps)) = formatParams (some ps)) ∧
    (∀ (k : String) (n : Int),
        formatParams (some [(k, .JNum n)]) = "-" ++ k ++ " " ++ toString n) ∧
    (∀ (k1 s1 k2 s2 : String),
        formatParams (some [(k1, .JStr s1), (k2, .JStr s2)]) =
          ("-" ++ k1 ++ " \"" ++ s1 ++ "\"") ++ " " ++ ("-" ++ k2 ++ " \"" ++ s2 ++ "\"")) ∧
    formatParams none = "" ∧
    formatParams (some []) = "" ∧
    renderCommandText "Get-Ticket" (some [("conditions", .JStr "status='Open'")]) =
      "Get-Ticket -conditions \"status='Open'\"" := by
  refine ⟨?_, ?_, ?_, ?_, ?_, rfl, rfl, by decide⟩
  · intro k s
    simp [formatParams, List.filter_cons, renderEntry_str_ne_empty k s, joinSpace, renderEntry]
  · intro k
    simp [formatParams, List.filter_cons, renderEntry_true_ne_empty k, joinSpace, renderEntry]
  · intro k ps
    simp [formatParams, List.filter_cons, renderEntry]
  · intro k n
    simp [formatParams, List.filter_cons, renderEntry_num_ne_empty k n, joinSpace, renderEntry,
      jsInterp]
  · intro k1 s1 k2 s2
    simp [formatParams, List.filter_cons, renderEntry_str_ne_empty k1 s1,
      renderEntry_str_ne_empty k2 s2, joinSpace, renderEntry]

/-- C7: the executor resolves with the trimmed stdout text exactly when
the process exits 0; a non-zero exit rejects with the failure message
carrying the captured stderr; a failed start rejects with the
process-start failure message. -/
theorem executor_exit_code_contract :
    (∀ stdout stderr : String,
        executePowerShell (.completed 0 stdout stderr) = .ok stdout.trim) ∧
    (∀ (code : Int) (stdout stderr : String), code ≠ 0 →
        executePowerShell (.completed code stdout stderr) =
          .error ("PowerShell execution failed with code " ++ toString code ++ ": " ++ stderr)) ∧
    (∀ m : String,
        executePowerShell (.spawnFailed m) =
          .error ("Failed to start PowerShell process: " ++ m)) := by
  refine ⟨fun stdout stderr => rfl, ?_, fun m => rfl⟩
  intro code stdout stderr h
  show (if code = 0 then _ else _) = _
  rw [if_neg h]

/-- C7 witness: exit code 1 with stderr `bad filter` rejects with a
message that ends in the stderr text. -/
theorem executor_exit_code_contract_witness :
    executePowerShell (.completed 1 "ignored" "bad filter") =
      .error "PowerShell execution failed with code 1: bad filter" :=
  executor_exit_code_contract.2.1 1 "ignored" "bad filter" (by decide)

/-- C8 counterexample: with every credential unset in the environment and
none supplied per-call, the code's connection bootstrap PROCEEDS —
rendering each missing credential as the literal text `undefined` in the
`Connect-CWM` command — whereas the spec-modelled bootstrap fails with
MissingCredential; so the bootstrap does not fail with MissingCredential
as the claim states. -/
theorem connect_missing_credential_counterexample :
    connectBootstrap ⟨none, none, none, none, none⟩ ⟨none, none, none, none, none⟩ =
      .proceed ("Connect-CWM -Server undefined -Company undefined -PubKey undefined" ++
                " -PrivateKey undefined -ClientID undefined") ∧
    specBootstrap ⟨none, none, none, none, none⟩ ⟨none, none, none, none, none⟩ =
      .failMissingCredential "server" := by
  exact ⟨by decide, by decide⟩

/-- C8 amended: whenever a credential is unset in the ambient
configuration and not supplied per-call (the `||` fallback yields
`undefined`), the bootstrap does NOT fail with MissingCredential — no
such check exists — but proceeds, interpolating each missing credential
as the literal text `undefined` into the command handed to the external
interpreter, diverging from the spec-modelled bootstrap. -/
theorem connect_missing_credentials_interpolated :
    ∀ (env : EnvConfig) (body : ConnectBody),
      jsOrStr body.server env.CWM_SERVER = none →
      jsOrStr body.company env.CWM_COMPANY = none →
      jsOrStr body.pubKey env.CWM_PUBKEY = none →
      jsOrStr body.privateKey env.CWM_PRIVATEKEY = none →
      jsOrStr body.clientId env.CWM_CLIENTID = none →
      connectBootstrap env body =
        .proceed ("Connect-CWM -Server undefined -Company undefined -PubKey undefined" ++
                  " -PrivateKey undefined -ClientID undefined") ∧
      specBootstrap env body = .failMissingCredential "server" := by
  intro env body h1 h2 h3 h4 h5
  constructor
  · unfold connectBootstrap renderCommandText connectParams
    rw [h1, h2, h3, h4, h5]
    decide
  · unfold specBootstrap
    rw [h1]
    rfl

/-- C8 witness: the environment is fully unset and the request supplies
only `server: ""` — falsy, so the `||` fallback still yields `undefined`
— and the bootstrap proceeds with the all-`undefined` command. -/
theorem connect_missing_credentials_interpolated_witness :
    connectBootstrap ⟨none, none, none, none, none⟩ ⟨some "", none, none, none, none⟩ =
      .proceed ("Connect-CWM -Server undefined -Company undefined -PubKey undefined" ++
                " -PrivateKey undefined -ClientID undefined") ∧
    specBootstrap ⟨none, none, none, none, none⟩ ⟨some "", none, none, none, none⟩ =
      .failMissingCredential "server" :=
  connect_missing_credentials_interpolated
    ⟨none, none, none, none, none⟩ ⟨some "", none, none, none, none⟩ rfl rfl rfl rfl rfl

/-- C9 counterexample: a `POST /context/:id/executeCommand` request whose
body lacks `command` but whose context identifier is unknown answers 500
with the not-found message — not 400 — because `getContext` runs before
the missing-command check. -/
theorem executeCommand_missing_command_counterexample :
    (postExecuteCommand [] "abc" none none 0 (fun _ => .err "boom")).2 =
      { status := 500, body := .fields [("error", "Context abc not found")] } ∧
    (postExecuteCommand [] "abc" none none 0 (fun _ => .err "boom")).2.status ≠ 400 := by
  exact ⟨rfl, by decide⟩

/-- C9 amended: for requests naming an EXISTING context, a missing (or
empty, hence falsy) `command` answers 400 `{error:"Command is required"}`
with the registry untouched; for an unknown context the lookup failure
wins and the response is 500 `{error:"Context <id> not found"}`; any
executor rejection on an existing context with a truthy command surfaces
as 500 `{error: <message>}`. -/
theorem executeCommand_status_contract :
    ∀ (r : Registry) (contextId : String) (command : Option String)
      (params : Option (List (String × JSValue))) (now : Nat) (exec : ExecOracle),
      (mapHas r contextId = false →
        postExecuteCommand r contextId command params now exec =
          (r, { status := 500,
                body := .fields [("error", "Context " ++ contextId ++ " not found")] })) ∧
      (mapHas r contextId = true → jsTruthyStr command = false →
        postExecuteCommand r contextId command params now exec =
          (r, { status := 400, body := .fields [("error", "Command is required")] })) ∧
      (mapHas r contextId = true → jsTruthyStr command = true →
        ∀ m : String, exec (renderCommandText (command.getD "") params) = .err m →
        (postExecuteCommand r contextId command params now exec).2 =
          { status := 500, body := .fields [("error", m)] }) := by
  intro r contextId command params now exec
  refine ⟨?_, ?_, ?_⟩
  · intro h
    unfold postExecuteCommand getContext
    rw [mapGet_eq_none h]
  · intro h hcmd
    obtain ⟨ctx, hget⟩ := mapGet_isSome_of_has h
    simp [postExecuteCommand, getContext, hget, hcmd]
  · intro h hcmd m hexec
    obtain ⟨ctx, hget⟩ := mapGet_isSome_of_has h
    simp [postExecuteCommand, getContext, hget, hcmd, hexec]

/-- C9 witness: missing command on an existing context answers 400; the
unknown context answers 500; an executor rejection surfaces as 500 with
its message. -/
theorem executeCommand_status_contract_witness :
    postExecuteCommand [("x1y2z3", sampleCtx)] "x1y2z3" none none 7 (fun _ => .err "boom") =
      ([("x1y2z3", sampleCtx)],
       { status := 400, body := .fields [("error", "Command is required")] }) ∧
    postExecuteCommand [] "abc" (some "Get-CWMTicket") none 7 (fun _ => .err "boom") =
      ([], { status := 500, body := .fields [("error", "Context abc not found")] }) ∧
    (postExecuteCommand [("x1y2z3", sampleCtx)] "x1y2z3" (some "Get-CWMTicket") none 7
        (fun _ => .err "boom")).2 =
      { status := 500, body := .fields [("error", "boom")] } :=
  ⟨((executeCommand_status_contract [("x1y2z3", sampleCtx)] "x1y2z3" none none 7
      (fun _ => .err "boom")).2.1 (by decide) (by decide)),
   ((executeCommand_status_contract [] "abc" (some "Get-CWMTicket") none 7
      (fun _ => .err "boom")).1 (by decide)),
   ((executeCommand_status_contract [("x1y2z3", sampleCtx)] "x1y2z3" (some "Get-CWMTicket") none 7
      (fun _ => .err "boom")).2.2 (by decide) (by decide) "boom" rfl)⟩

/-- C10: every operation handler on an existing context refreshes the
record's `lastAccessed` to the current time regardless of the external
command's outcome (the refresh happens before the command is invoked, so
it survives a failure — the oracle `exec` here is universally
quantified, covering success and rejection alike; for executeCommand the
command must be truthy, since the 400 path never invokes the executor);
and any record whose `now - lastAccessedAt` is within the threshold
survives a sweep, so a context receiving only failing operations is kept
alive. -/
theorem lastAccessed_refreshed_even_on_failure :
    (∀ (r : Registry) (contextId : String) (ctx : ContextRecord) (now : Nat)
        (env : EnvConfig) (body : ConnectBody) (conditions : Option String)
        (command : Option String) (params : Option (List (String × JSValue)))
        (exec : ExecOracle),
        mapGet r contextId = some ctx →
        (mapGet (postConnect r contextId env body now exec).1 contextId).map
            ContextRecord.lastAccessed = some now ∧
        (mapGet (postGetSystemInfo r contextId now exec).1 contextId).map
            ContextRecord.lastAccessed = some now ∧
        (mapGet (postGetCompanies r contextId conditions now exec).1 contextId).map
            ContextRecord.lastAccessed = some now ∧
        (mapGet (postGetTickets r contextId conditions now exec).1 contextId).map
            ContextRecord.lastAccessed = some now ∧
        (jsTruthyStr command = true →
          (mapGet (postExecuteCommand r contextId command params now exec).1 contextId).map
              ContextRecord.lastAccessed = some now)) ∧
    (∀ (r2 : Registry) (now2 staleThreshold : Nat) (p : String × ContextRecord),
        p ∈ r2 → (now2 : Int) - (p.2.lastAccessed : Int) ≤ (staleThreshold : Int) →
        p ∈ sweep r2 now2 staleThreshold) := by
  refine ⟨?_, ?_⟩
  · intro r contextId ctx now env body conditions command params exec hget
    refine ⟨?_, ?_, ?_, ?_, ?_⟩
    · cases hexec : exec (renderCommandText "Connect-CWM" (some (connectParams env body))) with
      | ok res => simp [postConnect, getContext, hget, hexec, mapGet_mapSet_self]
      | err m => simp [postConnect, getContext, hget, hexec, mapGet_mapSet_self]
    · cases hexec : exec (renderCommandText "Get-CWMSystemInfo" none) with
      | ok res => simp [postGetSystemInfo, getContext, hget, hexec, mapGet_mapSet_self]
      | err m => simp [postGetSystemInfo, getContext, hget, hexec, mapGet_mapSet_self]
    · cases hexec : exec (renderCommandText "Get-CWMCompany" (some (conditionParams conditions))) with
      | ok res => simp [postGetCompanies, getContext, hget, hexec, mapGet_mapSet_self]
      | err m => simp [postGetCompanies, getContext, hget, hexec, mapGet_mapSet_self]
    · cases hexec : exec (renderCommandText "Get-CWMTicket" (some (conditionParams conditions))) with
      | ok res => simp [postGetTickets, getContext, hget, hexec, mapGet_mapSet_self]
      | err m => simp [postGetTickets, getContext, hget, hexec, mapGet_mapSet_self]
    · intro hcmd
      cases hexec : exec (renderCommandText (command.getD "") params) with
      | ok res => simp [postExecuteCommand, getContext, hget, hexec, hcmd, mapGet_mapSet_self]
      | err m => simp [postExecuteCommand, getContext, hget, hexec, hcmd, mapGet_mapSet_self]
  · intro r2 now2 staleThreshold p hmem hle
    unfold sweep
    rw [List.mem_filter]
    refine ⟨hmem, ?_⟩
    simp only [decide_eq_true_eq, gt_iff_lt, not_lt]
    exact hle

/-- C10 witness: a failing getTickets call at time 5 still sets the
record's `lastAccessed` to 5, and at `now = 3600005` the record is
exactly at the one-hour threshold and survives the sweep. -/
theorem lastAccessed_refreshed_even_on_failure_witness :
    (mapGet (postGetTickets [("x1y2z3", sampleCtx)] "x1y2z3" none 5
        (fun _ => .err "no creds")).1 "x1y2z3").map ContextRecord.lastAccessed = some 5 ∧
    ("x1y2z3", { sampleCtx with lastAccessed := 5 }) ∈
      sweep [("x1y2z3", { sampleCtx with lastAccessed := 5 })] 3600005 3600000 :=
  ⟨(lastAccessed_refreshed_even_on_failure.1 [("x1y2z3", sampleCtx)] "x1y2z3" sampleCtx 5
      ⟨none, none, none, none, none⟩ ⟨none, none, none, none, none⟩ none none none
      (fun _ => .err "no creds") (by decide)).2.2.2.1,
   lastAccessed_refreshed_even_on_failure.2 _ 3600005 3600000 _ (by decide) (by decide)⟩

end CWM
